import Mathlib

/-!
Verification development for the SaccharumVision inference core
(`src/utils/model_manager.py`, `src/config/config.py`).

The Python code is shallowly embedded: images are rectangular grids of
exact rational RGB pixels, the opaque Keras model is a parameter
`Img → Except String (List ℚ)` (an exception-throwing map from an input
tensor to a probability vector), file-system reads are parameters
returning `Option`/`Except` values, and every Python `try/except` block
becomes an explicit `Option`/`Except` match.  Floating-point arithmetic
is modelled by exact rational arithmetic.
-/

/-- One RGB pixel with exact rational channel values. -/
structure Px where
  r : ℚ
  g : ℚ
  b : ℚ
deriving DecidableEq

/-- An image: a list of rows of pixels (rectangular in all uses). -/
abbrev Img := List (List Px)

/-- Apply a function to every pixel of an image. -/
def mapPx (f : Px → Px) (img : Img) : Img :=
  img.map (fun row => row.map f)

/-- `tf.image.flip_left_right`: reverse every row. -/
def flipLR (img : Img) : Img := img.map List.reverse

/-- `tf.image.flip_up_down`: reverse the list of rows. -/
def flipUD (img : Img) : Img := img.reverse

/-- `tf.image.rot90` with `k = 1`: one counter-clockwise quarter turn.
On a rectangular image, `(rot90 img) i j = img j (w - 1 - i)`. -/
def rot90 (img : Img) : Img := (List.transpose img).reverse

/-- `tf.image.adjust_brightness` on float images: add `delta` to every channel. -/
def adjustBrightness (delta : ℚ) (img : Img) : Img :=
  mapPx (fun p => ⟨p.r + delta, p.g + delta, p.b + delta⟩) img

/-- Sum of one channel over the whole image. -/
def channelSum (ch : Px → ℚ) (img : Img) : ℚ :=
  (img.map (fun row => (row.map ch).sum)).sum

/-- Number of pixels of an image, as a rational. -/
def pixelCount (img : Img) : ℚ :=
  (img.map (fun row => (row.length : ℚ))).sum

/-- `tf.image.adjust_contrast`: per channel, `(x - mean) * factor + mean`
where `mean` is that channel's mean over the whole image. -/
def adjustContrast (factor : ℚ) (img : Img) : Img :=
  let n := pixelCount img
  let mr := channelSum Px.r img / n
  let mg := channelSum Px.g img / n
  let mb := channelSum Px.b img / n
  mapPx (fun p =>
    ⟨(p.r - mr) * factor + mr, (p.g - mg) * factor + mg, (p.b - mb) * factor + mb⟩) img

/-- RGB to HSV conversion as in the TensorFlow kernel backing
`tf.image.adjust_saturation`: returns `(h, s, v)`. -/
def rgbToHsv (p : Px) : ℚ × ℚ × ℚ :=
  let vv := max p.r (max p.g p.b)
  let mn := min p.r (min p.g p.b)
  let range := vv - mn
  let s := if 0 < vv then range / vv else 0
  let norm := 1 / (6 * range)
  let hh0 :=
    if p.r = vv then norm * (p.g - p.b)
    else if p.g = vv then norm * (p.b - p.r) + 2 / 6
    else norm * (p.r - p.g) + 4 / 6
  let hh1 := if range ≤ 0 then 0 else hh0
  let hh := if hh1 < 0 then hh1 + 1 else hh1
  (hh, s, vv)

/-- The fractional adjustment `fmodu` of the TensorFlow HSV-to-RGB kernel:
bring `x` into the half-open interval `(0, 2]` by steps of 2. -/
def fmod2 (x : ℚ) : ℚ := x - 2 * ((⌈x / 2⌉ : ℤ) - 1)

/-- HSV to RGB conversion as in the TensorFlow kernel backing
`tf.image.adjust_saturation`. -/
def hsvToRgb (h s v : ℚ) : Px :=
  let c := s * v
  let m := v - c
  let dh := h * 6
  let fmodu := fmod2 dh
  let x := c * (1 - |fmodu - 1|)
  let cat : ℤ := ⌊dh⌋
  let rr := if cat = 0 then c else if cat = 1 then x else if cat = 2 then 0
            else if cat = 3 then 0 else if cat = 4 then x else if cat = 5 then c else 0
  let gg := if cat = 0 then x else if cat = 1 then c else if cat = 2 then c
            else if cat = 3 then x else if cat = 4 then 0 else if cat = 5 then 0 else 0
  let bb := if cat = 0 then 0 else if cat = 1 then 0 else if cat = 2 then x
            else if cat = 3 then c else if cat = 4 then c else if cat = 5 then x else 0
  ⟨rr + m, gg + m, bb + m⟩

/-- `tf.image.adjust_saturation` on one pixel: convert to HSV, scale the
saturation, clamp it to `[0, 1]`, convert back. -/
def adjustSaturationPx (scale : ℚ) (p : Px) : Px :=
  let hsv := rgbToHsv p
  hsvToRgb hsv.1 (min 1 (max 0 (hsv.2.1 * scale))) hsv.2.2

/-- `tf.image.adjust_saturation` on a whole image. -/
def adjustSaturation (scale : ℚ) (img : Img) : Img :=
  mapPx (adjustSaturationPx scale) img

/-- Clamp a rational into `[lo, hi]`. -/
def clampQ (lo hi x : ℚ) : ℚ := min hi (max lo x)

/-- `tf.clip_by_value(img, lo, hi)`. -/
def clipImg (lo hi : ℚ) (img : Img) : Img :=
  mapPx (fun p => ⟨clampQ lo hi p.r, clampQ lo hi p.g, clampQ lo hi p.b⟩) img

/- ------------------------------------------------------------------
Preprocessing-function selection (`ModelManager._set_preprocess_function`).
------------------------------------------------------------------ -/

/-- Helper for Python substring containment: does `pat` occur in `s`
(as a contiguous sublist), scanning left to right. -/
def containsSubAux (pat : List Char) : List Char → Bool
  | [] => pat.isPrefixOf []
  | c :: rest => pat.isPrefixOf (c :: rest) || containsSubAux pat rest

/-- Python `pat in s`: substring containment on the character lists. -/
def containsSub (s pat : List Char) : Bool := containsSubAux pat s

/-- The four preprocessing functions `_set_preprocess_function` can select. -/
inductive PreprocessKind where
  | resnet
  | efficientnet
  | mobilenet
  | generic
deriving DecidableEq

/-- `ModelManager._set_preprocess_function`: substring dispatch on the
lowercased model-type string, falling back to the generic `[-1, 1]`
rescale.  Total: no branch can raise. -/
def set_preprocess_function (model_type : String) : PreprocessKind :=
  let lower := model_type.data.map Char.toLower
  if containsSub lower "resnet".data then .resnet
  else if containsSub lower "efficientnet".data then .efficientnet
  else if containsSub lower "mobilenet".data then .mobilenet
  else .generic

/-- The generic fallback rescale `x / 127.5 - 1.0`. -/
def genericPre (x : ℚ) : ℚ := x / 127.5 - 1

/-- Channel semantics of each selectable preprocessing function:
ResNet50 `preprocess_input` (caffe mode) flips RGB to BGR and subtracts
the ImageNet channel means; EfficientNet `preprocess_input` is a
pass-through; MobileNetV2 `preprocess_input` and the generic fallback
both rescale to `[-1, 1]`. -/
def preprocessPx : PreprocessKind → Px → Px
  | .resnet, p => ⟨p.b - 103.939, p.g - 116.779, p.r - 123.68⟩
  | .efficientnet, p => p
  | .mobilenet, p => ⟨genericPre p.r, genericPre p.g, genericPre p.b⟩
  | .generic, p => ⟨genericPre p.r, genericPre p.g, genericPre p.b⟩

/-- A whole-image preprocessing function from its kind. -/
def applyPreprocess (k : PreprocessKind) : Img → Img :=
  mapPx (preprocessPx k)

/- ------------------------------------------------------------------
Class-list loading (`ModelManager._load_classes`, `config.DEFAULT_CLASSES`).
------------------------------------------------------------------ -/

/-- `config.DEFAULT_CLASSES`, also hardcoded in `_load_classes`. -/
def DEFAULT_CLASSES : List String := ["Healthy", "Mosaic", "RedRot", "Rust", "Yellow"]

/-- `ModelManager._load_classes`.  The label resource is `none` when the
file does not exist, `some (.error e)` when reading or JSON-parsing it
raises, and `some (.ok cs)` when it parses to a list of labels.  Both
failure modes fall back to the default class list; the function is
total, so construction never raises on account of the label file. -/
def load_classes (resource : Option (Except String (List String))) : List String :=
  match resource with
  | none => DEFAULT_CLASSES
  | some (.error _) => DEFAULT_CLASSES
  | some (.ok cs) => cs

/- ------------------------------------------------------------------
Numpy primitives used by the prediction paths.
------------------------------------------------------------------ -/

/-- `np.argmax`: index of the first occurrence of the maximum value.
(`np.argmax` raises on an empty array; callers guard for that.) -/
def np_argmax : List ℚ → Nat
  | [] => 0
  | [_] => 0
  | x :: y :: xs =>
    let j := np_argmax (y :: xs)
    if x < (y :: xs).getD j 0 then j + 1 else 0

/-- The comparison key of a stable ascending `np.argsort` of `preds`:
ascending value, ties broken by ascending index. -/
def argKey (preds : List ℚ) (i j : Nat) : Prop :=
  preds.getD i 0 < preds.getD j 0 ∨ (preds.getD i 0 = preds.getD j 0 ∧ i ≤ j)

instance (preds : List ℚ) : DecidableRel (argKey preds) := fun i j => by
  unfold argKey; infer_instance

/-- `np.argsort(preds)` modelled as the stable ascending sort of the
index range (numpy uses a stable insertion sort on the small arrays
arising here). -/
def np_argsort (preds : List ℚ) : List Nat :=
  List.insertionSort (argKey preds) (List.range preds.length)

/-- `np.argsort(preds)[-3:][::-1]`: indices of the (up to) three largest
entries, largest first. -/
def top3Indices (preds : List ℚ) : List Nat :=
  ((np_argsort preds).drop (preds.length - 3)).reverse

/-- Python `dict(sorted(d.items(), key=lambda x: x[1], reverse=True))`:
stable descending sort of an association list by value. -/
def sortDescByVal (l : List (String × ℚ)) : List (String × ℚ) :=
  List.insertionSort (fun a b => b.2 ≤ a.2) l

/-- The probability dictionary `{classes[i]: preds[i] for i in range(len(classes))}`
(insertion order = class index order). -/
def probDict (classes : List String) (preds : List ℚ) : List (String × ℚ) :=
  (List.range classes.length).map (fun i => (classes.getD i "", preds.getD i 0))

/- ------------------------------------------------------------------
The embedded `ModelManager` and its prediction results.
------------------------------------------------------------------ -/

/-- The embedded `ModelManager` state after construction.  `model` is
the opaque Keras model (`Except` carries an inference exception);
`loadTFRaw` is `tf.io.read_file` + `decode_jpeg` + `resize` (the raw
pixel-domain image, `none` on failure); `loadPILRaw` is the PIL
`open` + `convert` + `resize` path of `preprocess_image`;
`preprocess` is the selected `preprocess_fn`. -/
structure MM where
  classes : List String
  preprocess : Img → Img
  model : Img → Except String (List ℚ)
  loadTFRaw : String → Option Img
  loadPILRaw : String → Option Img

/-- `ModelManager.load_and_preprocess_image_tf`: decode and resize, then
apply the family-specific `preprocess_fn`; `None` on any failure. -/
def load_and_preprocess_image_tf (mm : MM) (path : String) : Option Img :=
  (mm.loadTFRaw path).map mm.preprocess

/-- `ModelManager.preprocess_image`: the PIL path, scaling pixels by 1/255. -/
def preprocess_image (mm : MM) (path : String) : Option Img :=
  (mm.loadPILRaw path).map (mapPx (fun p => ⟨p.r / 255, p.g / 255, p.b / 255⟩))

/-- Result dictionary of `ModelManager.predict` (note: `confidence` is the
raw 0-1 probability and there is no `probability` key). -/
structure PILResult where
  cls : String
  confidence : ℚ
  probabilities : List (String × ℚ)
deriving DecidableEq

/-- `ModelManager.predict`: the PIL-preprocessing path; any failure is
re-raised (`Except.error`), including index errors from a probability
vector shorter than the class list or an argmax outside it. -/
def predict (mm : MM) (path : String) : Except String PILResult :=
  match preprocess_image mm path with
  | none => .error "preprocess_image"
  | some img =>
    match mm.model img with
    | .error e => .error e
    | .ok preds =>
      if preds ≠ [] ∧ np_argmax preds < mm.classes.length ∧
          mm.classes.length ≤ preds.length then
        .ok { cls := mm.classes.getD (np_argmax preds) ""
            , confidence := preds.getD (np_argmax preds) 0
            , probabilities := sortDescByVal (probDict mm.classes preds) }
      else .error "IndexError"

/-- Result dictionary of `ModelManager.predict_single_direct`. -/
structure DirectResult where
  cls : String
  confidence : ℚ
  probability : ℚ
  probabilities : List (String × ℚ)
deriving DecidableEq

/-- `ModelManager.predict_single_direct`: TF preprocessing, one model
call, `confidence = probability * 100`; `None` on any failure. -/
def predict_single_direct (mm : MM) (path : String) : Option DirectResult :=
  match load_and_preprocess_image_tf mm path with
  | none => none
  | some img =>
    match mm.model img with
    | .error _ => none
    | .ok preds =>
      if preds ≠ [] ∧ np_argmax preds < mm.classes.length ∧
          mm.classes.length ≤ preds.length then
        some { cls := mm.classes.getD (np_argmax preds) ""
             , confidence := preds.getD (np_argmax preds) 0 * 100
             , probability := preds.getD (np_argmax preds) 0
             , probabilities := sortDescByVal (probDict mm.classes preds) }
      else none

/-- One entry of a top-3 list. -/
structure T3 where
  cls : String
  confidence : ℚ
  probability : ℚ
deriving DecidableEq

/-- `ModelManager.get_top_3_predictions`: a fresh TF-preprocessed model
call on the same path; `None` when the image load fails or any entry
index falls outside the class list (the swallowed `IndexError`). -/
def get_top_3_predictions (mm : MM) (path : String) : Option (List T3) :=
  match load_and_preprocess_image_tf mm path with
  | none => none
  | some img =>
    match mm.model img with
    | .error _ => none
    | .ok preds =>
      if (top3Indices preds).all (fun i => i < mm.classes.length) then
        some ((top3Indices preds).map (fun i =>
          { cls := mm.classes.getD i ""
          , confidence := preds.getD i 0 * 100
          , probability := preds.getD i 0 }))
      else none

/- ------------------------------------------------------------------
Test-time augmentation (`ModelManager.predict_with_tta`).
------------------------------------------------------------------ -/

/-- The six random draws of one augmentation pass: `rot` is
`tf.random.uniform([], 0, 4, tf.int32)` (intended range `0..3`), the
two flip draws and the three jitter amounts are `tf.random.uniform`
draws with the ranges fixed in the code because the random source is
abstracted as an explicit tape. -/
structure AugTape where
  rot : Nat
  hflipDraw : ℚ
  vflipDraw : ℚ
  brightnessDelta : ℚ
  contrastFactor : ℚ
  saturationFactor : ℚ
deriving DecidableEq

/-- `if tf.random.uniform([]) > 0.4: img = tf.image.flip_left_right(img)`. -/
def hflipStep (draw : ℚ) (img : Img) : Img :=
  if draw > 0.4 then flipLR img else img

/-- `if tf.random.uniform([]) > 0.7: img = tf.image.flip_up_down(img)`. -/
def vflipStep (draw : ℚ) (img : Img) : Img :=
  if draw > 0.7 then flipUD img else img

/-- One augmentation pass of `predict_with_tta`, transliterated: rot90
by the drawn count, conditional horizontal flip, conditional vertical
flip, brightness, contrast, saturation, clip to `[0, 255]`. -/
def augmentOnce (t : AugTape) (img : Img) : Img :=
  clipImg 0 255
    (adjustSaturation t.saturationFactor
      (adjustContrast t.contrastFactor
        (adjustBrightness t.brightnessDelta
          (vflipStep t.vflipDraw
            (hflipStep t.hflipDraw
              (Nat.iterate rot90 t.rot img))))))

/-- Run an exception-throwing action over a list, aborting on the first
exception (the augmentation loop of `predict_with_tta`: any exception
aborts the whole aggregation). -/
def mapExcept (f : α → Except ε β) : List α → Except ε (List β)
  | [] => .ok []
  | a :: as =>
    match f a with
    | .error e => .error e
    | .ok b =>
      match mapExcept f as with
      | .error e => .error e
      | .ok bs => .ok (b :: bs)

/-- `np.mean(vs, axis=0)`: element-wise arithmetic mean; raises (here
`none`) when the vectors are ragged or the list is empty. -/
def meanVec : List (List ℚ) → Option (List ℚ)
  | [] => none
  | v :: rest =>
    if rest.all (fun w => w.length = v.length) then
      some ((List.range v.length).map (fun i =>
        (((v :: rest).map (fun w => w.getD i 0)).sum) / (((v :: rest).length : Nat) : ℚ)))
    else none

/-- Result dictionary of `ModelManager.predict_with_tta`. -/
structure TTAResult where
  cls : String
  confidence : ℚ
  probability : ℚ
  probabilities : List (String × ℚ)
  num_augmentations : Nat
deriving DecidableEq

/-- Forget the `num_augmentations` key (the fields `improved_predict` reads). -/
def TTAResult.toDirect (r : TTAResult) : DirectResult :=
  { cls := r.cls, confidence := r.confidence, probability := r.probability
  , probabilities := r.probabilities }

/-- `ModelManager.predict_with_tta`, transliterated.  The original image
is loaded and family-normalized once (`load_and_preprocess_image_tf`);
the base prediction runs on it; each augmented pass applies
`augmentOnce` to that same already-normalized tensor and feeds the
variant directly to the model; the per-pass vectors are averaged with
`np.mean`; any caught exception yields `None`. -/
def predict_with_tta (mm : MM) (path : String) (tapes : List AugTape) :
    Option TTAResult :=
  match load_and_preprocess_image_tf mm path with
  | none => none
  | some img_original =>
    match mm.model img_original with
    | .error _ => none
    | .ok base_pred =>
      match mapExcept (fun t => mm.model (augmentOnce t img_original)) tapes with
      | .error _ => none
      | .ok aug_preds =>
        match meanVec (base_pred :: aug_preds) with
        | none => none
        | some avg =>
          if avg ≠ [] ∧ np_argmax avg < mm.classes.length ∧
              mm.classes.length ≤ avg.length then
            some { cls := mm.classes.getD (np_argmax avg) ""
                 , confidence := avg.getD (np_argmax avg) 0 * 100
                 , probability := avg.getD (np_argmax avg) 0
                 , probabilities := sortDescByVal (probDict mm.classes avg)
                 , num_augmentations := tapes.length }
          else none

/-- The sequence of tensors `predict_with_tta` feeds to the model once
the image is loaded: the normalized original, then each augmentation of
that already-normalized tensor. -/
def tta_inputs (mm : MM) (raw : Img) (tapes : List AugTape) : List Img :=
  mm.preprocess raw :: tapes.map (fun t => augmentOnce t (mm.preprocess raw))

/-- The aggregation of `predict_with_tta` expressed over `tta_inputs`:
run the model on every input, average, take the argmax. -/
def tta_aggregate (mm : MM) (raw : Img) (tapes : List AugTape) : Option TTAResult :=
  match mapExcept mm.model (tta_inputs mm raw tapes) with
  | .error _ => none
  | .ok preds_list =>
    match meanVec preds_list with
    | none => none
    | some avg =>
      if avg ≠ [] ∧ np_argmax avg < mm.classes.length ∧
          mm.classes.length ≤ avg.length then
        some { cls := mm.classes.getD (np_argmax avg) ""
             , confidence := avg.getD (np_argmax avg) 0 * 100
             , probability := avg.getD (np_argmax avg) 0
             , probabilities := sortDescByVal (probDict mm.classes avg)
             , num_augmentations := tapes.length }
      else none

/-- Modelled from the spec: the model-input sequence demanded by §4.3
and §4.4 — the augmentation engine operates on the raw pixel-domain
image and every augmented variant is passed through the
family-specific normalization before inference. -/
def spec_tta_inputs (mm : MM) (raw : Img) (tapes : List AugTape) : List Img :=
  mm.preprocess raw :: tapes.map (fun t => mm.preprocess (augmentOnce t raw))

/-- Modelled from the spec: the §4.4 aggregation run over
`spec_tta_inputs` (normalization after augmentation). -/
def spec_tta_aggregate (mm : MM) (raw : Img) (tapes : List AugTape) :
    Option TTAResult :=
  match mapExcept mm.model (spec_tta_inputs mm raw tapes) with
  | .error _ => none
  | .ok preds_list =>
    match meanVec preds_list with
    | none => none
    | some avg =>
      if avg ≠ [] ∧ np_argmax avg < mm.classes.length ∧
          mm.classes.length ≤ avg.length then
        some { cls := mm.classes.getD (np_argmax avg) ""
             , confidence := avg.getD (np_argmax avg) 0 * 100
             , probability := avg.getD (np_argmax avg) 0
             , probabilities := sortDescByVal (probDict mm.classes avg)
             , num_augmentations := tapes.length }
      else none

/- ------------------------------------------------------------------
`ModelManager.improved_predict`.
------------------------------------------------------------------ -/

/-- The result dictionary of `improved_predict`: either one of the two
full-shaped dictionaries (status `success` or `warning`) or the error
dictionary `{status: error, message, confidence: 0, probability: 0}`. -/
inductive ImpResult where
  | ok (status : String) (cls : String) (confidence : ℚ) (probability : ℚ)
      (probabilities : List (String × ℚ)) (method : String) (message : String)
      (top_3 : Option (List T3))
  | err (message : String)
deriving DecidableEq

/-- The `status` field of an `improved_predict` result. -/
def ImpResult.status : ImpResult → String
  | .ok s _ _ _ _ _ _ _ => s
  | .err _ => "error"

/-- The `confidence` field (`0` in the error dictionary). -/
def ImpResult.confidence : ImpResult → ℚ
  | .ok _ _ c _ _ _ _ _ => c
  | .err _ => 0

/-- The `probability` field (`0` in the error dictionary). -/
def ImpResult.probability : ImpResult → ℚ
  | .ok _ _ _ p _ _ _ _ => p
  | .err _ => 0

/-- The `message` field. -/
def ImpResult.message : ImpResult → String
  | .ok _ _ _ _ _ _ m _ => m
  | .err m => m

/-- The conditional expression choosing between the TTA and the direct
prediction path in `improved_predict`. -/
def underlying_result (mm : MM) (path : String) (use_tta : Bool)
    (tapes : List AugTape) : Option DirectResult :=
  if use_tta then (predict_with_tta mm path tapes).map TTAResult.toDirect
  else predict_single_direct mm path

/-- The `method` string of `improved_predict`. -/
def methodString (use_tta : Bool) (tapes : List AugTape) : String :=
  if use_tta then "TTA (" ++ toString tapes.length ++ " augmentaciones)"
  else "Predicción directa (sin TTA)"

/-- The low-confidence warning message of `improved_predict` (numeric
formatting simplified to `toString`). -/
def warningMessage (confidence threshold : ℚ) : String :=
  "⚠️ Confianza baja (" ++ toString confidence ++ "%). Se requiere mínimo "
    ++ toString (threshold * 100) ++ "%."

/-- The success message of `improved_predict`. -/
def successMessage (cls : String) (confidence : ℚ) : String :=
  "✅ Detectado: " ++ cls ++ " (" ++ toString confidence ++ "%)"

/-- `ModelManager.improved_predict`, transliterated.  A `None` from the
underlying prediction becomes the error dictionary; otherwise the top-3
helper runs (its own failures yield `top_3 = None` without changing the
status) and the threshold picks `warning` or `success`.  The function is
total: the callees swallow their own exceptions, so the outer
`except` branch of the Python code is unreachable and the caller never
sees a raised exception. -/
def improved_predict (mm : MM) (path : String) (use_tta : Bool)
    (threshold : ℚ) (tapes : List AugTape) : ImpResult :=
  match underlying_result mm path use_tta tapes with
  | none => .err "Error en la predicción"
  | some r =>
    let top_3 := get_top_3_predictions mm path
    if r.probability < threshold then
      .ok "warning" r.cls r.confidence r.probability r.probabilities
        (methodString use_tta tapes) (warningMessage r.confidence threshold) top_3
    else
      .ok "success" r.cls r.confidence r.probability r.probabilities
        (methodString use_tta tapes) (successMessage r.cls r.confidence) top_3

/- ------------------------------------------------------------------
Spec-side augmentation pipeline (for the §4.3 order claim).
------------------------------------------------------------------ -/

/-- Rotation by a whole number of degrees in `{0, 90, 180, 270}`,
counter-clockwise, expressed as the spec states it (a degree, not a
quarter-turn count). -/
def rotateByDegrees (d : Nat) : Img → Img :=
  if d = 0 then id
  else if d = 90 then rot90
  else if d = 180 then fun img => rot90 (rot90 img)
  else if d = 270 then fun img => rot90 (rot90 (rot90 img))
  else id

/-- Modelled from the spec, §4.3: rotate by the drawn multiple of 90
degrees; horizontal flip iff the draw exceeds 0.4; vertical flip iff
the draw exceeds 0.7; additive brightness shift; contrast scale;
saturation scale; clip into `[0, 255]` — in this order, each later
step operating on the output of the earlier one. -/
def specAugment (t : AugTape) (img : Img) : Img :=
  clipImg 0 255
    (adjustSaturation t.saturationFactor
      (adjustContrast t.contrastFactor
        (adjustBrightness t.brightnessDelta
          (vflipStep t.vflipDraw
            (hflipStep t.hflipDraw
              (rotateByDegrees (90 * t.rot) img))))))

/- ------------------------------------------------------------------
Concrete fixtures used by counterexamples and witnesses.
------------------------------------------------------------------ -/

/-- A one-pixel black image. -/
def img0 : Img := [[⟨0, 0, 0⟩]]

/-- A one-pixel white image (pixel value 255). -/
def img255 : Img := [[⟨255, 255, 255⟩]]

/-- A tape that only shifts brightness by `+0.2` (no rotation, no flips,
contrast and saturation factors 1). -/
def tapeB : AugTape := ⟨0, 0, 0, 1/5, 1, 1⟩

/-- A tape that only shifts brightness by `+0.1`. -/
def tapeId : AugTape := ⟨0, 0, 0, 1/10, 1, 1⟩

/-- A manager with the generic preprocessing over a white image, whose
model distinguishes the tensor `predict_with_tta` actually feeds it for
the `tapeB` pass from every other tensor. -/
def mmC1 : MM :=
  { classes := ["Healthy", "Mosaic"]
  , preprocess := applyPreprocess .generic
  , model := fun img =>
      .ok (if img = augmentOnce tapeB (applyPreprocess .generic img255)
           then [9/10, 1/10] else [1/10, 9/10])
  , loadTFRaw := fun _ => some img255
  , loadPILRaw := fun _ => none }

/-- A manager whose model returns a five-way tie. -/
def mmTie : MM :=
  { classes := DEFAULT_CLASSES
  , preprocess := id
  , model := fun _ => .ok [1/5, 1/5, 1/5, 1/5, 1/5]
  , loadTFRaw := fun _ => some img0
  , loadPILRaw := fun _ => none }

/-- A manager whose model answers differently on the original tensor and
on the `tapeId`-augmented tensor, so the TTA average differs from the
direct prediction that feeds `get_top_3_predictions`. -/
def mmTTAdiff : MM :=
  { classes := ["Healthy", "Mosaic"]
  , preprocess := id
  , model := fun img => .ok (if img = img0 then [9/10, 1/10] else [1/10, 9/10])
  , loadTFRaw := fun _ => some img0
  , loadPILRaw := fun _ => none }

/-- A manager with a constant model, loadable by both the PIL and the TF
path. -/
def mmC4 : MM :=
  { classes := ["Healthy", "Mosaic"]
  , preprocess := id
  , model := fun _ => .ok [3/4, 1/4]
  , loadTFRaw := fun _ => some img0
  , loadPILRaw := fun _ => some img0 }

/-- A manager with a constant model for the K = 0 equivalence witness. -/
def mm5 : MM :=
  { classes := ["Healthy", "Mosaic"]
  , preprocess := id
  , model := fun _ => .ok [3/5, 2/5]
  , loadTFRaw := fun _ => some img0
  , loadPILRaw := fun _ => none }

/-- A manager for the C6 witness: the model answers `[9/10, 1/10]` on the
original tensor and `[1/2, 1/2]` on every augmented tensor. -/
def mm6 : MM :=
  { classes := ["Healthy", "Mosaic"]
  , preprocess := id
  , model := fun img => .ok (if img = img0 then [9/10, 1/10] else [1/2, 1/2])
  , loadTFRaw := fun _ => some img0
  , loadPILRaw := fun _ => none }

/-- A manager with one class but a three-entry probability vector: the
direct prediction succeeds while `get_top_3_predictions` trips its
`IndexError` and returns `None`. -/
def mmT10 : MM :=
  { classes := ["Healthy"]
  , preprocess := id
  , model := fun _ => .ok [3/5, 3/10, 1/10]
  , loadTFRaw := fun _ => some img0
  , loadPILRaw := fun _ => none }

/-- A manager whose image load always fails. -/
def mmNone : MM :=
  { classes := DEFAULT_CLASSES
  , preprocess := id
  , model := fun _ => .ok [1]
  , loadTFRaw := fun _ => none
  , loadPILRaw := fun _ => none }

/-- A manager whose direct prediction lands below a 0.7 threshold. -/
def mmWarn : MM :=
  { classes := ["Healthy", "Mosaic"]
  , preprocess := id
  , model := fun _ => .ok [2/5, 3/5]
  , loadTFRaw := fun _ => some img0
  , loadPILRaw := fun _ => none }

/- ------------------------------------------------------------------
Supporting lemmas.
------------------------------------------------------------------ -/

/-- `mapExcept` over a mapped list fuses the two maps. -/
theorem mapExcept_map (f : β → Except ε γ) (g : α → β) (l : List α) :
    mapExcept f (l.map g) = mapExcept (fun a => f (g a)) l := by
  induction l with
  | nil => rfl
  | cons a as ih => simp only [List.map_cons, mapExcept, ih]

/-- A successful `mapExcept` preserves the length. -/
theorem mapExcept_ok_length (f : α → Except ε β) (l : List α) (l2 : List β)
    (h : mapExcept f l = .ok l2) : l2.length = l.length := by
  induction l generalizing l2 with
  | nil => cases h; rfl
  | cons a as ih =>
    unfold mapExcept at h
    cases hf : f a with
    | error e => rw [hf] at h; cases h
    | ok b =>
      rw [hf] at h
      cases hm : mapExcept f as with
      | error e => rw [hm] at h; cases h
      | ok bs => rw [hm] at h; cases h; simp [ih bs hm]

/-- Reassembling a list from `getD` at each index of its range. -/
theorem map_range_getD (l : List ℚ) :
    (List.range l.length).map (fun i => l.getD i 0) = l := by
  apply List.ext_getElem
  · simp
  · intro i h1 h2
    simp [List.getD_eq_getElem, List.getElem?_eq_getElem h2]

/-- `getD` of a map over a range, below the bound. -/
theorem getD_map_range {β : Type} (n i : Nat) (f : Nat → β) (d : β) (hi : i < n) :
    ((List.range n).map f).getD i d = f i := by
  rw [List.getD_eq_getElem ((List.range n).map f) d (by simpa using hi)]
  simp

/-- `np.mean` of a single vector is that vector. -/
theorem meanVec_singleton (v : List ℚ) : meanVec [v] = some v := by
  unfold meanVec
  simp only [List.all_nil, if_true]
  congr 1
  calc (List.range v.length).map
        (fun i => (([v].map (fun w => w.getD i 0)).sum) / ((([v] : List (List ℚ)).length : Nat) : ℚ))
      = (List.range v.length).map (fun i => v.getD i 0) := by
        apply List.map_congr_left
        intro i _
        simp
    _ = v := map_range_getD v

/-- `np.argmax` returns an index of the list (on nonempty input) and the
value there is a maximum. -/
theorem np_argmax_spec : ∀ l : List ℚ, l ≠ [] →
    np_argmax l < l.length ∧ ∀ i < l.length, l.getD i 0 ≤ l.getD (np_argmax l) 0
  | [], h => absurd rfl h
  | [x], _ => by
    refine ⟨by simp [np_argmax], ?_⟩
    intro i hi
    have hi0 : i = 0 := by simpa using hi
    subst hi0
    simp [np_argmax]
  | x :: y :: xs, _ => by
    have ih := np_argmax_spec (y :: xs) (by simp)
    unfold np_argmax
    by_cases hx : x < (y :: xs).getD (np_argmax (y :: xs)) 0
    · rw [if_pos hx]
      refine ⟨by simpa using ih.1, ?_⟩
      intro i hi
      cases i with
      | zero => simpa using le_of_lt hx
      | succ i =>
        have := ih.2 i (by simpa using hi)
        simpa using this
    · rw [if_neg hx]
      refine ⟨by simp, ?_⟩
      intro i hi
      cases i with
      | zero => simp
      | succ i =>
        have h1 := ih.2 i (by simpa using hi)
        have h2 := le_of_not_lt hx
        simp only [List.getD_cons_succ, List.getD_cons_zero]
        exact le_trans h1 h2

/- ------------------------------------------------------------------
Claim C8.
------------------------------------------------------------------ -/

/-- Claim C8: if the label-list file is missing or its contents are
invalid, classifier construction does not raise on that account — the
(total) class loader falls back to exactly the fixed default five-label
set, which is also `config.DEFAULT_CLASSES`. -/
theorem c8_label_fallback (resource : Option (Except String (List String)))
    (h : resource = none ∨ ∃ e, resource = some (Except.error e)) :
    load_classes resource = ["Healthy", "Mosaic", "RedRot", "Rust", "Yellow"] ∧
    load_classes resource = DEFAULT_CLASSES := by
  rcases h with h | ⟨e, h⟩ <;> subst h <;> exact ⟨rfl, rfl⟩

/-- Witness for C8 at a concretely missing label file. -/
theorem c8_label_fallback_witness :
    load_classes none = ["Healthy", "Mosaic", "RedRot", "Rust", "Yellow"] ∧
    load_classes (some (Except.error "invalid JSON")) = DEFAULT_CLASSES :=
  ⟨(c8_label_fallback none (Or.inl rfl)).1,
   (c8_label_fallback (some (Except.error "invalid JSON"))
      (Or.inr ⟨"invalid JSON", rfl⟩)).2⟩

/- ------------------------------------------------------------------
Evaluation lemmas for the concrete fixtures.
------------------------------------------------------------------ -/

/-- RGB-to-HSV on a gray pixel: hue and saturation are zero. -/
theorem rgbToHsv_gray (v : ℚ) : rgbToHsv ⟨v, v, v⟩ = (0, 0, v) := by
  unfold rgbToHsv
  simp

/-- Saturation adjustment fixes gray pixels. -/
theorem adjustSaturationPx_gray (s v : ℚ) : adjustSaturationPx s ⟨v, v, v⟩ = ⟨v, v, v⟩ := by
  unfold adjustSaturationPx
  rw [rgbToHsv_gray]
  unfold hsvToRgb fmod2
  norm_num

/-- Contrast adjustment with factor 1 is the identity. -/
theorem adjustContrast_one (img : Img) : adjustContrast 1 img = img := by
  unfold adjustContrast mapPx
  simp

/-- The generic preprocessing maps the white test image to all-ones. -/
theorem eval_pre255 : applyPreprocess .generic img255 = [[⟨1, 1, 1⟩]] := by
  unfold applyPreprocess mapPx preprocessPx genericPre img255
  norm_num

/-- `tapeB` on the normalized white image only shifts brightness. -/
theorem eval_augB_pre : augmentOnce tapeB [[⟨1, 1, 1⟩]] = [[⟨6/5, 6/5, 6/5⟩]] := by
  unfold augmentOnce tapeB
  norm_num [hflipStep, vflipStep, Nat.iterate, adjustBrightness, mapPx,
    adjustContrast_one, adjustSaturation, adjustSaturationPx_gray, clipImg, clampQ]

/-- `tapeB` on the raw white image: the brightness shift is clipped away. -/
theorem eval_augB_255 : augmentOnce tapeB img255 = img255 := by
  unfold augmentOnce tapeB img255
  norm_num [hflipStep, vflipStep, Nat.iterate, adjustBrightness, mapPx,
    adjustContrast_one, adjustSaturation, adjustSaturationPx_gray, clipImg, clampQ]

/-- `predict_with_tta` on the `mmC1` fixture: the augmented pass sees the
brightness-shifted normalized tensor, so the average is an even split. -/
theorem eval_tta_mmC1 : predict_with_tta mmC1 "p" [tapeB] =
    some ⟨"Healthy", 50, 1/2, [("Healthy", 1/2), ("Mosaic", 1/2)], 1⟩ := by
  unfold predict_with_tta load_and_preprocess_image_tf mmC1
  norm_num [eval_pre255, eval_augB_pre, mapExcept, meanVec, List.range_succ,
    np_argmax, sortDescByVal, probDict, Px.mk.injEq]
  exact fun h => (List.cons_ne_nil _ _ h).elim

/-- The spec-side aggregate on the same fixture: augmenting the raw image
is undone by clipping, so both passes see the same normalized tensor. -/
theorem eval_spec_mmC1 : spec_tta_aggregate mmC1 img255 [tapeB] =
    some ⟨"Mosaic", 90, 9/10, [("Mosaic", 9/10), ("Healthy", 1/10)], 1⟩ := by
  unfold spec_tta_aggregate spec_tta_inputs mmC1
  norm_num [eval_pre255, eval_augB_255, eval_augB_pre, mapExcept, meanVec, List.range_succ,
    np_argmax, sortDescByVal, probDict, Px.mk.injEq]
  exact fun h => (List.cons_ne_nil _ _ h).elim

/- ------------------------------------------------------------------
Claim C1.
------------------------------------------------------------------ -/

/-- Claim C1 counterexample: `predict_with_tta` does not normalize after
augmenting.  On the concrete `mmC1` fixture the tensors actually fed to
the model differ from the spec-mandated normalize-after-augment tensors,
and the resulting predictions differ as well — so it is false that, for
every image and augmentation index, normalization happens after
augmentation. -/
theorem c1_counterexample :
    tta_inputs mmC1 img255 [tapeB] ≠ spec_tta_inputs mmC1 img255 [tapeB] ∧
    predict_with_tta mmC1 "p" [tapeB] ≠ spec_tta_aggregate mmC1 img255 [tapeB] := by
  constructor
  · unfold tta_inputs spec_tta_inputs mmC1
    norm_num [eval_pre255, eval_augB_pre, eval_augB_255, Px.mk.injEq]
  · rw [eval_tta_mmC1, eval_spec_mmC1]
    norm_num [TTAResult.mk.injEq]

/-- Claim C1 (amended): in `predict_with_tta` the family-specific
normalization is applied once, before augmentation; every augmentation
pass operates on the already-normalized tensor and its output is fed to
the model directly, with no further normalization — the whole
aggregation equals the normalize-first reference `tta_aggregate`. -/
theorem c1_normalization_before_augmentation (mm : MM) (path : String)
    (tapes : List AugTape) (raw : Img) (h : mm.loadTFRaw path = some raw) :
    tta_inputs mm raw tapes =
      mm.preprocess raw :: tapes.map (fun t => augmentOnce t (mm.preprocess raw)) ∧
    predict_with_tta mm path tapes = tta_aggregate mm raw tapes := by
  refine ⟨rfl, ?_⟩
  unfold predict_with_tta tta_aggregate tta_inputs load_and_preprocess_image_tf
  rw [h, Option.map_some']
  cases hm : mm.model (mm.preprocess raw) with
  | error e => simp only [mapExcept, hm]
  | ok base =>
    simp only [mapExcept, hm, mapExcept_map]
    cases hme : mapExcept (fun t => mm.model (augmentOnce t (mm.preprocess raw))) tapes <;>
      simp

/-- Witness for the amended C1 at the concrete `mmC1` fixture. -/
theorem c1_normalization_before_augmentation_witness :
    tta_inputs mmC1 img255 [tapeB] =
      mmC1.preprocess img255 ::
        [tapeB].map (fun t => augmentOnce t (mmC1.preprocess img255)) ∧
    predict_with_tta mmC1 "p" [tapeB] = tta_aggregate mmC1 img255 [tapeB] :=
  c1_normalization_before_augmentation mmC1 "p" [tapeB] img255 rfl

/- ------------------------------------------------------------------
Claim C9.
------------------------------------------------------------------ -/

/-- Claim C9: when the lowercased model-family name contains none of the
substrings `resnet`, `efficientnet`, `mobilenet`, the (total, hence
never-raising) preprocessing selection falls back to the generic rescale
`x / 127.5 - 1.0`, which maps the pixel range `[0, 255]` onto `[-1, 1]`
(both bounded and onto). -/
theorem c9_generic_fallback (model_type : String)
    (h1 : containsSub (model_type.data.map Char.toLower) "resnet".data = false)
    (h2 : containsSub (model_type.data.map Char.toLower) "efficientnet".data = false)
    (h3 : containsSub (model_type.data.map Char.toLower) "mobilenet".data = false) :
    set_preprocess_function model_type = PreprocessKind.generic ∧
    (∀ x : ℚ, 0 ≤ x → x ≤ 255 → -1 ≤ genericPre x ∧ genericPre x ≤ 1) ∧
    (∀ y : ℚ, -1 ≤ y → y ≤ 1 → ∃ x : ℚ, 0 ≤ x ∧ x ≤ 255 ∧ genericPre x = y) := by
  refine ⟨?_, ?_, ?_⟩
  · unfold set_preprocess_function
    simp [h1, h2, h3]
  · intro x hx0 hx255
    unfold genericPre
    constructor
    · have hx : (0:ℚ) ≤ x / 127.5 := by positivity
      linarith
    · have hx : x / 127.5 ≤ 2 := by
        rw [div_le_iff₀ (by norm_num : (0:ℚ) < 127.5)]
        linarith
      linarith
  · intro y hy1 hy2
    refine ⟨(y + 1) * 127.5, by nlinarith, by nlinarith, ?_⟩
    unfold genericPre
    field_simp

/-- Witness for C9 at the unknown family name `VGG16`. -/
theorem c9_generic_fallback_witness :
    set_preprocess_function "VGG16" = PreprocessKind.generic ∧
    -1 ≤ genericPre 100 ∧ genericPre 100 ≤ 1 := by
  have h := c9_generic_fallback "VGG16" (by decide) (by decide) (by decide)
  exact ⟨h.1, (h.2.1 100 (by norm_num) (by norm_num)).1,
        (h.2.1 100 (by norm_num) (by norm_num)).2⟩

/- ------------------------------------------------------------------
Claim C10.
------------------------------------------------------------------ -/

/-- On the `mmT10` fixture the top-3 helper trips its swallowed
`IndexError` (second-best index 1 is outside the one-label class list)
and returns `None`. -/
theorem eval_top3_mmT10 : get_top_3_predictions mmT10 "p" = none := by
  unfold get_top_3_predictions load_and_preprocess_image_tf mmT10
  norm_num [top3Indices, np_argsort, argKey, List.range_succ]

/-- On the same fixture the direct prediction itself succeeds. -/
theorem eval_direct_mmT10 : predict_single_direct mmT10 "p" =
    some ⟨"Healthy", 60, 3/5, [("Healthy", 3/5)]⟩ := by
  unfold predict_single_direct load_and_preprocess_image_tf mmT10
  norm_num [np_argmax, sortDescByVal, probDict, List.range_succ]
  exact fun h => (List.cons_ne_nil _ _ h).elim

/-- Claim C10: a success-status result of `improved_predict` does not
guarantee a list-valued `top_3`: on the `mmT10` fixture
`get_top_3_predictions` swallows its failure and returns `None`, and
`improved_predict` attaches that `None` unchanged while still reporting
status `success`. -/
theorem c10_top3_none_without_error :
    get_top_3_predictions mmT10 "p" = none ∧
    improved_predict mmT10 "p" false (1/2) [] =
      ImpResult.ok "success" "Healthy" 60 (3/5) [("Healthy", 3/5)]
        (methodString false []) (successMessage "Healthy" 60) none ∧
    (improved_predict mmT10 "p" false (1/2) []).status = "success" := by
  have himp : improved_predict mmT10 "p" false (1/2) [] =
      ImpResult.ok "success" "Healthy" 60 (3/5) [("Healthy", 3/5)]
        (methodString false []) (successMessage "Healthy" 60) none := by
    unfold improved_predict underlying_result
    rw [eval_direct_mmT10, eval_top3_mmT10]
    norm_num
  exact ⟨eval_top3_mmT10, himp, by rw [himp]; rfl⟩

/- ------------------------------------------------------------------
Claim C7.
------------------------------------------------------------------ -/

/-- Claim C7: each augmentation pass applies, in this exact order,
(1) rotation by a random multiple of 90 degrees among 0/90/180/270,
(2) horizontal flip iff the draw exceeds 0.4, (3) vertical flip iff the
draw exceeds 0.7, (4) additive brightness shift in `[-0.2, 0.2]`,
(5) contrast scale in `[0.7, 1.4]`, (6) saturation scale in `[0.5, 1.8]`,
(7) clip into `[0, 255]`, each later step operating on the output of the
earlier one: the transliterated pass equals the pipeline written from
the wording of §4.3 for every tape within the drawn ranges.  (That each
draw is uniform is a property of the abstracted `tf.random` source, not
of this code path.) -/
theorem c7_augmentation_order (t : AugTape) (img : Img)
    (hrot : t.rot < 4)
    (_hhf : 0 ≤ t.hflipDraw ∧ t.hflipDraw ≤ 1)
    (_hvf : 0 ≤ t.vflipDraw ∧ t.vflipDraw ≤ 1)
    (_hbr : -(1/5) ≤ t.brightnessDelta ∧ t.brightnessDelta ≤ 1/5)
    (_hco : 7/10 ≤ t.contrastFactor ∧ t.contrastFactor ≤ 7/5)
    (_hsa : 1/2 ≤ t.saturationFactor ∧ t.saturationFactor ≤ 9/5) :
    augmentOnce t img = specAugment t img := by
  have hr : rotateByDegrees (90 * t.rot) img = Nat.iterate rot90 t.rot img := by
    have h4 : t.rot = 0 ∨ t.rot = 1 ∨ t.rot = 2 ∨ t.rot = 3 := by omega
    rcases h4 with h | h | h | h <;> rw [h] <;> simp [rotateByDegrees, Nat.iterate]
  unfold augmentOnce specAugment
  rw [hr]

/-- Witness for C7 at a concrete quarter-turn tape on the black image. -/
theorem c7_augmentation_order_witness :
    augmentOnce ⟨1, 1/2, 1/2, 0, 1, 1⟩ img0 = specAugment ⟨1, 1/2, 1/2, 0, 1, 1⟩ img0 :=
  c7_augmentation_order ⟨1, 1/2, 1/2, 0, 1, 1⟩ img0 (by norm_num)
    (by norm_num) (by norm_num) (by norm_num) (by norm_num) (by norm_num)

/- ------------------------------------------------------------------
Claim C5.
------------------------------------------------------------------ -/

/-- Any successful `predict_with_tta` reports the requested augmentation
count. -/
theorem predict_with_tta_num_augmentations (mm : MM) (path : String)
    (tapes : List AugTape) (r : TTAResult)
    (h : predict_with_tta mm path tapes = some r) :
    r.num_augmentations = tapes.length := by
  unfold predict_with_tta load_and_preprocess_image_tf at h
  repeat' split at h
  all_goals try cases h
  all_goals rfl

/-- Claim C5: aggregation with zero augmentations degenerates to the
direct single-pass prediction — identical class, confidence,
probability, and probabilities mapping (exactly, hence within any
floating tolerance), with `num_augmentations = 0` as the only extra
field. -/
theorem c5_k0_equals_direct (mm : MM) (path : String) :
    (predict_with_tta mm path []).map TTAResult.toDirect = predict_single_direct mm path ∧
    (∀ r, predict_with_tta mm path [] = some r → r.num_augmentations = 0) := by
  constructor
  · unfold predict_with_tta predict_single_direct load_and_preprocess_image_tf
    cases hl : mm.loadTFRaw path with
    | none => rfl
    | some raw =>
      simp only [Option.map_some']
      cases hm : mm.model (mm.preprocess raw) with
      | error e => rfl
      | ok preds =>
        dsimp only [mapExcept]
        rw [meanVec_singleton]
        dsimp only
        split_ifs with hg
        · rfl
        · rfl
  · intro r hr
    exact predict_with_tta_num_augmentations mm path [] r hr

/-- A zero-augmentation TTA run on the `mm5` fixture. -/
theorem eval_tta_mm5 : predict_with_tta mm5 "p" [] =
    some ⟨"Healthy", 60, 3/5, [("Healthy", 3/5), ("Mosaic", 2/5)], 0⟩ := by
  unfold predict_with_tta load_and_preprocess_image_tf mm5
  norm_num [mapExcept, meanVec, List.range_succ, np_argmax, sortDescByVal,
    probDict, Px.mk.injEq]
  exact fun h => (List.cons_ne_nil _ _ h).elim

/-- Witness for C5 at the concrete `mm5` fixture. -/
theorem c5_k0_equals_direct_witness :
    (predict_with_tta mm5 "p" []).map TTAResult.toDirect = predict_single_direct mm5 "p" ∧
    (⟨"Healthy", 60, 3/5, [("Healthy", 3/5), ("Mosaic", 2/5)], 0⟩ : TTAResult).num_augmentations = 0 :=
  ⟨(c5_k0_equals_direct mm5 "p").1,
   (c5_k0_equals_direct mm5 "p").2 _ eval_tta_mm5⟩

/- ------------------------------------------------------------------
Claim C2.
------------------------------------------------------------------ -/

/-- Claim C2: `improved_predict` is total (never raises) and its status
is exactly one of `success`, `warning`, `error`.  When the underlying
prediction succeeds with probability below the threshold the status is
`warning` yet class, confidence, probability, probabilities and top-3
are all still attached; at or above the threshold the status is
`success`; and when the underlying prediction yields `None` (its own
swallowed exceptions included) the result is the error dictionary with
confidence 0, probability 0 and the error message. -/
theorem c2_improved_predict_contract (mm : MM) (path : String) (use_tta : Bool)
    (τ : ℚ) (tapes : List AugTape) :
    ((improved_predict mm path use_tta τ tapes).status = "success" ∨
     (improved_predict mm path use_tta τ tapes).status = "warning" ∨
     (improved_predict mm path use_tta τ tapes).status = "error") ∧
    (∀ r, underlying_result mm path use_tta tapes = some r →
      (r.probability < τ →
        improved_predict mm path use_tta τ tapes =
          .ok "warning" r.cls r.confidence r.probability r.probabilities
            (methodString use_tta tapes) (warningMessage r.confidence τ)
            (get_top_3_predictions mm path)) ∧
      (τ ≤ r.probability →
        improved_predict mm path use_tta τ tapes =
          .ok "success" r.cls r.confidence r.probability r.probabilities
            (methodString use_tta tapes) (successMessage r.cls r.confidence)
            (get_top_3_predictions mm path))) ∧
    (underlying_result mm path use_tta tapes = none →
      improved_predict mm path use_tta τ tapes = .err "Error en la predicción" ∧
      (improved_predict mm path use_tta τ tapes).confidence = 0 ∧
      (improved_predict mm path use_tta τ tapes).probability = 0) := by
  cases hu : underlying_result mm path use_tta tapes with
  | none =>
    refine ⟨?_, ?_, ?_⟩
    · right; right
      unfold improved_predict
      rw [hu]
      rfl
    · intro r hr
      cases hr
    · intro _
      have h : improved_predict mm path use_tta τ tapes = .err "Error en la predicción" := by
        unfold improved_predict
        rw [hu]
      exact ⟨h, by rw [h]; rfl, by rw [h]; rfl⟩
  | some r0 =>
    have hcase : improved_predict mm path use_tta τ tapes =
        if r0.probability < τ then
          ImpResult.ok "warning" r0.cls r0.confidence r0.probability r0.probabilities
            (methodString use_tta tapes) (warningMessage r0.confidence τ)
            (get_top_3_predictions mm path)
        else
          ImpResult.ok "success" r0.cls r0.confidence r0.probability r0.probabilities
            (methodString use_tta tapes) (successMessage r0.cls r0.confidence)
            (get_top_3_predictions mm path) := by
      unfold improved_predict
      rw [hu]
    refine ⟨?_, ?_, ?_⟩
    · by_cases hp : r0.probability < τ
      · right; left
        rw [hcase, if_pos hp]
        rfl
      · left
        rw [hcase, if_neg hp]
        rfl
    · intro r hr
      cases hr
      constructor
      · intro hp
        rw [hcase, if_pos hp]
      · intro hp
        rw [hcase, if_neg (not_lt.mpr hp)]
    · intro h
      cases h

/-- On the `mmWarn` fixture the direct path yields a below-0.7 result. -/
theorem eval_under_mmWarn : underlying_result mmWarn "p" false [] =
    some ⟨"Mosaic", 60, 3/5, [("Mosaic", 3/5), ("Healthy", 2/5)]⟩ := by
  unfold underlying_result predict_single_direct load_and_preprocess_image_tf mmWarn
  norm_num [np_argmax, sortDescByVal, probDict, List.range_succ]
  exact fun h => (List.cons_ne_nil _ _ h).elim

/-- On the `mmNone` fixture the underlying prediction fails. -/
theorem eval_under_mmNone : underlying_result mmNone "p" false [] = none := by
  unfold underlying_result predict_single_direct load_and_preprocess_image_tf mmNone
  norm_num

/-- Witness for C2: a concrete warning-status result with all fields
attached, and a concrete error-status result. -/
theorem c2_improved_predict_contract_witness :
    improved_predict mmWarn "p" false (7/10) [] =
      .ok "warning" "Mosaic" 60 (3/5) [("Mosaic", 3/5), ("Healthy", 2/5)]
        (methodString false []) (warningMessage 60 (7/10))
        (get_top_3_predictions mmWarn "p") ∧
    improved_predict mmNone "p" false (7/10) [] = .err "Error en la predicción" := by
  constructor
  · exact ((c2_improved_predict_contract mmWarn "p" false (7/10) []).2.1 _
      eval_under_mmWarn).1 (by norm_num)
  · exact ((c2_improved_predict_contract mmNone "p" false (7/10) []).2.2
      eval_under_mmNone).1

/- ------------------------------------------------------------------
Claim C4.
------------------------------------------------------------------ -/

/-- The dictionary entry for a class index is in the probability dictionary. -/
theorem mem_probDict (classes : List String) (preds : List ℚ) (i : Nat)
    (hi : i < classes.length) :
    (classes.getD i "", preds.getD i 0) ∈ probDict classes preds := by
  unfold probDict
  exact List.mem_map.2 ⟨i, List.mem_range.2 hi, rfl⟩

/-- Sorting the probability dictionary does not change membership. -/
theorem mem_sortDescByVal (l : List (String × ℚ)) (x : String × ℚ) :
    x ∈ sortDescByVal l ↔ x ∈ l :=
  (List.perm_insertionSort _ l).mem_iff

/-- Every successful direct prediction satisfies `confidence = probability * 100`. -/
theorem predict_single_direct_conf (mm : MM) (path : String) (r : DirectResult)
    (h : predict_single_direct mm path = some r) :
    r.confidence = r.probability * 100 := by
  unfold predict_single_direct load_and_preprocess_image_tf at h
  repeat' split at h
  all_goals try cases h
  all_goals rfl

/-- Every successful TTA prediction satisfies `confidence = probability * 100`. -/
theorem predict_with_tta_conf (mm : MM) (path : String) (tapes : List AugTape)
    (r : TTAResult) (h : predict_with_tta mm path tapes = some r) :
    r.confidence = r.probability * 100 := by
  unfold predict_with_tta load_and_preprocess_image_tf at h
  repeat' split at h
  all_goals try cases h
  all_goals rfl

/-- The scale invariant transfers through the TTA/direct dispatch. -/
theorem underlying_result_conf (mm : MM) (path : String) (use_tta : Bool)
    (tapes : List AugTape) (r : DirectResult)
    (h : underlying_result mm path use_tta tapes = some r) :
    r.confidence = r.probability * 100 := by
  unfold underlying_result at h
  cases use_tta with
  | false =>
    simp only [Bool.false_eq_true, if_false] at h
    exact predict_single_direct_conf mm path r h
  | true =>
    simp only [if_true] at h
    rcases Option.map_eq_some'.1 h with ⟨r2, hr2, hr⟩
    subst hr
    exact predict_with_tta_conf mm path tapes r2 hr2

/-- In `predict`, the `confidence` field is the winning probability as
recorded (on the 0-1 scale) in the probabilities mapping itself. -/
theorem predict_cls_conf_mem (mm : MM) (path : String) (r : PILResult)
    (h : predict mm path = .ok r) : (r.cls, r.confidence) ∈ r.probabilities := by
  unfold predict preprocess_image at h
  repeat' split at h
  all_goals try cases h
  case _ hg =>
    exact (mem_sortDescByVal _ _).2 (mem_probDict _ _ _ hg.2.1)

/-- On the `mmC4` fixture `predict` reports `confidence = 3/4` — the raw
0-1 probability, with no `probability` key in its result shape. -/
theorem eval_predict_mmC4 : predict mmC4 "p" =
    .ok ⟨"Healthy", 3/4, [("Healthy", 3/4), ("Mosaic", 1/4)]⟩ := by
  unfold predict preprocess_image mmC4
  norm_num [np_argmax, sortDescByVal, probDict, List.range_succ, mapPx]
  exact fun h => (List.cons_ne_nil _ _ h).elim

/-- The direct path on the same fixture, with the 0-100 confidence. -/
theorem eval_direct_mmC4 : predict_single_direct mmC4 "p" =
    some ⟨"Healthy", 75, 3/4, [("Healthy", 3/4), ("Mosaic", 1/4)]⟩ := by
  unfold predict_single_direct load_and_preprocess_image_tf mmC4
  norm_num [np_argmax, sortDescByVal, probDict, List.range_succ]
  exact fun h => (List.cons_ne_nil _ _ h).elim

/-- Claim C4 counterexample: `predict` (one of the operations the claim
quantifies over) returns `confidence = 3/4` for a winning probability of
`3/4`, and `3/4 ≠ 3/4 * 100` — its confidence is on the 0-1 scale and
its result carries no `probability` field at all. -/
theorem c4_counterexample :
    predict mmC4 "p" = .ok ⟨"Healthy", 3/4, [("Healthy", 3/4), ("Mosaic", 1/4)]⟩ ∧
    ¬ ((3:ℚ)/4 = (3/4) * 100) :=
  ⟨eval_predict_mmC4, by norm_num⟩

/-- Claim C4 (amended): `confidence = probability * 100` holds exactly
(hence within 1e-6) for every result of `predict_single_direct`,
`predict_with_tta` and `improved_predict` (error dictionaries included,
as 0 = 0 * 100); `predict` instead reports the winning probability on
the 0-1 scale — its confidence equals the entry recorded for its class
in its own probabilities mapping — and has no probability field. -/
theorem c4_confidence_scale (mm : MM) (path : String) :
    (∀ r, predict_single_direct mm path = some r → r.confidence = r.probability * 100) ∧
    (∀ tapes r, predict_with_tta mm path tapes = some r → r.confidence = r.probability * 100) ∧
    (∀ use_tta τ tapes, (improved_predict mm path use_tta τ tapes).confidence =
        (improved_predict mm path use_tta τ tapes).probability * 100) ∧
    (∀ r, predict mm path = .ok r → (r.cls, r.confidence) ∈ r.probabilities) := by
  refine ⟨predict_single_direct_conf mm path,
          fun tapes => predict_with_tta_conf mm path tapes, ?_,
          predict_cls_conf_mem mm path⟩
  intro use_tta τ tapes
  cases hu : underlying_result mm path use_tta tapes with
  | none =>
    have h : improved_predict mm path use_tta τ tapes = .err "Error en la predicción" := by
      unfold improved_predict
      rw [hu]
    rw [h]
    norm_num [ImpResult.confidence, ImpResult.probability]
  | some r0 =>
    have hc := underlying_result_conf mm path use_tta tapes r0 hu
    have h : improved_predict mm path use_tta τ tapes =
        if r0.probability < τ then
          ImpResult.ok "warning" r0.cls r0.confidence r0.probability r0.probabilities
            (methodString use_tta tapes) (warningMessage r0.confidence τ)
            (get_top_3_predictions mm path)
        else
          ImpResult.ok "success" r0.cls r0.confidence r0.probability r0.probabilities
            (methodString use_tta tapes) (successMessage r0.cls r0.confidence)
            (get_top_3_predictions mm path) := by
      unfold improved_predict
      rw [hu]
    rw [h]
    split_ifs <;> simpa [ImpResult.confidence, ImpResult.probability] using hc

/-- Witness for the amended C4 at the `mmC4` fixture. -/
theorem c4_confidence_scale_witness :
    predict_single_direct mmC4 "p" =
      some ⟨"Healthy", 75, 3/4, [("Healthy", 3/4), ("Mosaic", 1/4)]⟩ ∧
    (75 : ℚ) = (3/4) * 100 ∧
    ("Healthy", (3:ℚ)/4) ∈ [("Healthy", (3:ℚ)/4), ("Mosaic", (1:ℚ)/4)] :=
  ⟨eval_direct_mmC4,
   (c4_confidence_scale mmC4 "p").1 _ eval_direct_mmC4,
   (c4_confidence_scale mmC4 "p").2.2.2 _ eval_predict_mmC4⟩

/- ------------------------------------------------------------------
Claim C6.
------------------------------------------------------------------ -/

/-- Characterization of a successful `np.mean(…, axis=0)`: same length
as the first vector, entries are the element-wise sums divided by the
vector count. -/
theorem meanVec_spec (v : List ℚ) (rest : List (List ℚ)) (avg : List ℚ)
    (h : meanVec (v :: rest) = some avg) :
    avg.length = v.length ∧
    ∀ i < avg.length, avg.getD i 0 =
      (((v :: rest).map (fun w => w.getD i 0)).sum) / ((rest.length + 1 : Nat) : ℚ) := by
  simp only [meanVec] at h
  by_cases hb : (rest.all fun w => w.length = v.length) = true
  · rw [if_pos hb] at h
    cases h
    constructor
    · simp
    · intro i hi
      simp only [List.length_map, List.length_range] at hi
      rw [getD_map_range _ _ _ _ hi]
      norm_num
  · rw [if_neg hb] at h
    cases h

/-- Claim C6: with K augmentations, a successful `predict_with_tta` run
averages exactly K+1 probability vectors element-wise (the base vector
plus one per augmented pass), takes the argmax of the averaged vector
(a true maximizer), and reports that entry as `probability` and that
entry times 100 as `confidence`. -/
theorem c6_tta_average (mm : MM) (path : String) (tapes : List AugTape)
    (raw : Img) (base_pred : List ℚ) (aug_preds : List (List ℚ)) (avg : List ℚ)
    (hload : mm.loadTFRaw path = some raw)
    (hbase : mm.model (mm.preprocess raw) = .ok base_pred)
    (haug : mapExcept (fun t => mm.model (augmentOnce t (mm.preprocess raw))) tapes = .ok aug_preds)
    (hmean : meanVec (base_pred :: aug_preds) = some avg)
    (hne : avg ≠ [])
    (hidx : np_argmax avg < mm.classes.length)
    (hlen : mm.classes.length ≤ avg.length) :
    aug_preds.length = tapes.length ∧
    (∀ i < avg.length, avg.getD i 0 =
      (base_pred.getD i 0 + (aug_preds.map (fun w => w.getD i 0)).sum) /
        ((tapes.length + 1 : Nat) : ℚ)) ∧
    predict_with_tta mm path tapes = some
      ⟨mm.classes.getD (np_argmax avg) "", avg.getD (np_argmax avg) 0 * 100,
       avg.getD (np_argmax avg) 0, sortDescByVal (probDict mm.classes avg),
       tapes.length⟩ ∧
    (∀ i < avg.length, avg.getD i 0 ≤ avg.getD (np_argmax avg) 0) := by
  have hlen2 := mapExcept_ok_length _ _ _ haug
  have hms := meanVec_spec base_pred aug_preds avg hmean
  refine ⟨hlen2, ?_, ?_, ?_⟩
  · intro i hi
    rw [hms.2 i hi]
    simp [hlen2]
  · unfold predict_with_tta load_and_preprocess_image_tf
    rw [hload]
    simp only [Option.map_some']
    rw [hbase]
    dsimp only
    rw [haug]
    dsimp only
    rw [hmean]
    dsimp only
    rw [if_pos ⟨hne, hidx, hlen⟩]
  · intro i hi
    exact (np_argmax_spec avg hne).2 i hi

/-- `tapeId` on the black image only shifts brightness. -/
theorem eval_augId : augmentOnce tapeId img0 = [[⟨1/10, 1/10, 1/10⟩]] := by
  unfold augmentOnce tapeId img0
  norm_num [hflipStep, vflipStep, Nat.iterate, adjustBrightness, mapPx,
    adjustContrast_one, adjustSaturation, adjustSaturationPx_gray, clipImg, clampQ]

/-- Base prediction of the `mm6` fixture. -/
theorem eval_mm6_base : mm6.model (mm6.preprocess img0) = .ok [9/10, 1/10] := by
  norm_num [mm6]

/-- Augmented prediction of the `mm6` fixture. -/
theorem eval_mm6_aug :
    mapExcept (fun t => mm6.model (augmentOnce t (mm6.preprocess img0))) [tapeId] =
      .ok [[1/2, 1/2]] := by
  show mapExcept (fun t => mm6.model (augmentOnce t img0)) [tapeId] = .ok [[1/2, 1/2]]
  simp only [mapExcept, eval_augId]
  norm_num [mm6, img0, Px.mk.injEq]

/-- Averaging the two vectors of the `mm6` fixture. -/
theorem eval_mm6_mean : meanVec ([9/10, 1/10] :: [[1/2, 1/2]]) = some [7/10, 3/10] := by
  norm_num [meanVec, List.range_succ]

/-- Witness for C6 at the `mm6` fixture with K = 1. -/
theorem c6_tta_average_witness :
    predict_with_tta mm6 "p" [tapeId] = some
      ⟨mm6.classes.getD (np_argmax [7/10, 3/10]) "",
       [(7:ℚ)/10, 3/10].getD (np_argmax [7/10, 3/10]) 0 * 100,
       [(7:ℚ)/10, 3/10].getD (np_argmax [7/10, 3/10]) 0,
       sortDescByVal (probDict mm6.classes [7/10, 3/10]),
       [tapeId].length⟩ ∧
    (∀ i < ([(7:ℚ)/10, 3/10] : List ℚ).length, [(7:ℚ)/10, 3/10].getD i 0 =
      ([(9:ℚ)/10, 1/10].getD i 0 + ([[(1:ℚ)/2, 1/2]].map (fun w => w.getD i 0)).sum) /
        (([tapeId].length + 1 : Nat) : ℚ)) :=
  ⟨(c6_tta_average mm6 "p" [tapeId] img0 [9/10, 1/10] [[1/2, 1/2]] [7/10, 3/10]
      rfl eval_mm6_base eval_mm6_aug eval_mm6_mean (List.cons_ne_nil _ _)
      (by norm_num [np_argmax, mm6]) (by norm_num [mm6])).2.2.1,
   (c6_tta_average mm6 "p" [tapeId] img0 [9/10, 1/10] [[1/2, 1/2]] [7/10, 3/10]
      rfl eval_mm6_base eval_mm6_aug eval_mm6_mean (List.cons_ne_nil _ _)
      (by norm_num [np_argmax, mm6]) (by norm_num [mm6])).2.1⟩

/- ------------------------------------------------------------------
Claim C3.
------------------------------------------------------------------ -/

instance argKey_total (preds : List ℚ) : IsTotal Nat (argKey preds) := by
  constructor
  intro i j
  unfold argKey
  rcases lt_trichotomy (preds.getD i 0) (preds.getD j 0) with h | h | h
  · exact Or.inl (Or.inl h)
  · rcases Nat.le_total i j with hij | hij
    · exact Or.inl (Or.inr ⟨h, hij⟩)
    · exact Or.inr (Or.inr ⟨h.symm, hij⟩)
  · exact Or.inr (Or.inl h)

instance argKey_trans (preds : List ℚ) : IsTrans Nat (argKey preds) := by
  constructor
  intro i j k hij hjk
  unfold argKey at *
  rcases hij with h1 | ⟨h1, h1b⟩ <;> rcases hjk with h2 | ⟨h2, h2b⟩
  · exact Or.inl (lt_trans h1 h2)
  · exact Or.inl (h2 ▸ h1)
  · exact Or.inl (h1 ▸ h2)
  · exact Or.inr ⟨h1.trans h2, le_trans h1b h2b⟩

/-- The argsort is a permutation of the index range. -/
theorem np_argsort_perm (preds : List ℚ) :
    (np_argsort preds).Perm (List.range preds.length) :=
  List.perm_insertionSort _ _

/-- The argsort has one entry per probability. -/
theorem np_argsort_length (preds : List ℚ) :
    (np_argsort preds).length = preds.length := by
  simpa using (np_argsort_perm preds).length_eq

/-- The argsort is sorted for the stable ascending key. -/
theorem np_argsort_sorted (preds : List ℚ) :
    List.Sorted (argKey preds) (np_argsort preds) :=
  List.sorted_insertionSort _ _

/-- The argsort lists each index once. -/
theorem np_argsort_nodup (preds : List ℚ) : (np_argsort preds).Nodup :=
  ((np_argsort_perm preds).symm).nodup (List.nodup_range _)

/-- `[-3:]` keeps three entries, or all of them when fewer exist. -/
theorem top3Indices_length (preds : List ℚ) :
    (top3Indices preds).length = min 3 preds.length := by
  unfold top3Indices
  simp [np_argsort_length]
  omega

/-- Top-3 indices index into the probability vector. -/
theorem top3Indices_mem (preds : List ℚ) (i : Nat) (h : i ∈ top3Indices preds) :
    i < preds.length := by
  unfold top3Indices at h
  rw [List.mem_reverse] at h
  have h2 : i ∈ np_argsort preds := List.mem_of_mem_drop h
  have h3 : i ∈ List.range preds.length := (np_argsort_perm preds).mem_iff.1 h2
  exact List.mem_range.1 h3

/-- The top-3 index list is ordered by strictly descending probability,
with ties broken by strictly descending index. -/
theorem top3Indices_sorted (preds : List ℚ) :
    (top3Indices preds).Pairwise (fun i j =>
      preds.getD j 0 < preds.getD i 0 ∨
      (preds.getD i 0 = preds.getD j 0 ∧ j < i)) := by
  have hd : ((np_argsort preds).drop (preds.length - 3)).Pairwise (argKey preds) :=
    (np_argsort_sorted preds).sublist (List.drop_sublist _ _)
  have hnd : ((np_argsort preds).drop (preds.length - 3)).Pairwise (fun i j => i ≠ j) :=
    List.Nodup.sublist (List.drop_sublist _ _) (np_argsort_nodup preds)
  have hcomb := hd.and hnd
  unfold top3Indices
  rw [List.pairwise_reverse]
  refine hcomb.imp ?_
  intro a b hab
  rcases hab with ⟨hk, hne⟩
  unfold argKey at hk
  rcases hk with h | ⟨h, hle⟩
  · exact Or.inl h
  · exact Or.inr ⟨h.symm, lt_of_le_of_ne hle hne⟩

/-- Claim C3 (amended): on a valid image whose probability vector matches
the class list, `get_top_3_predictions` returns exactly `min 3 n`
entries, listed by descending probability with ties broken by
DESCENDING index; each entry carries `confidence = probability * 100`
and the probability at its index, and each `(label, probability)` pair
occurs in the probabilities mapping of the DIRECT single-pass
prediction on the same image (for TTA results the accompanying mapping
is the averaged vector and need not agree — see the counterexample). -/
theorem c3_top3 (mm : MM) (path : String) (raw : Img) (preds : List ℚ)
    (hload : mm.loadTFRaw path = some raw)
    (hmodel : mm.model (mm.preprocess raw) = .ok preds)
    (hlen : mm.classes.length = preds.length) :
    get_top_3_predictions mm path =
      some ((top3Indices preds).map (fun i =>
        ⟨mm.classes.getD i "", preds.getD i 0 * 100, preds.getD i 0⟩)) ∧
    (top3Indices preds).length = min 3 preds.length ∧
    (top3Indices preds).Pairwise (fun i j =>
      preds.getD j 0 < preds.getD i 0 ∨
      (preds.getD i 0 = preds.getD j 0 ∧ j < i)) ∧
    (∀ i ∈ top3Indices preds, i < preds.length) ∧
    (∀ r, predict_single_direct mm path = some r →
      ∀ i ∈ top3Indices preds, (mm.classes.getD i "", preds.getD i 0) ∈ r.probabilities) := by
  have hmem : ∀ i ∈ top3Indices preds, i < mm.classes.length := by
    intro i hi
    rw [hlen]
    exact top3Indices_mem preds i hi
  refine ⟨?_, top3Indices_length preds, top3Indices_sorted preds,
          fun i hi => top3Indices_mem preds i hi, ?_⟩
  · unfold get_top_3_predictions load_and_preprocess_image_tf
    rw [hload]
    simp only [Option.map_some']
    rw [hmodel]
    dsimp only
    rw [if_pos]
    rw [List.all_eq_true]
    intro i hi
    exact decide_eq_true (hmem i hi)
  · intro r hr i hi
    unfold predict_single_direct load_and_preprocess_image_tf at hr
    rw [hload] at hr
    simp only [Option.map_some'] at hr
    rw [hmodel] at hr
    dsimp only at hr
    split at hr
    · cases hr
      exact (mem_sortDescByVal _ _).2 (mem_probDict _ _ _ (hmem i hi))
    · cases hr

/-- A five-way tie: the code returns classes 4, 3, 2 — descending-index
tie-breaking. -/
theorem eval_top3_mmTie : get_top_3_predictions mmTie "p" =
    some [⟨"Yellow", 20, 1/5⟩, ⟨"Rust", 20, 1/5⟩, ⟨"RedRot", 20, 1/5⟩] := by
  unfold get_top_3_predictions load_and_preprocess_image_tf mmTie DEFAULT_CLASSES
  norm_num [top3Indices, np_argsort, argKey, List.range_succ]

/-- A TTA run whose averaged mapping (1/2, 1/2) disagrees with the
direct-prediction probabilities (9/10, 1/10) that `top_3` reports. -/
theorem eval_imp_mmTTAdiff : improved_predict mmTTAdiff "q" true 0 [tapeId] =
    .ok "success" "Healthy" 50 (1/2) [("Healthy", 1/2), ("Mosaic", 1/2)]
      (methodString true [tapeId]) (successMessage "Healthy" 50)
      (some [⟨"Healthy", 90, 9/10⟩, ⟨"Mosaic", 10, 1/10⟩]) := by
  have htta : predict_with_tta mmTTAdiff "q" [tapeId] =
      some ⟨"Healthy", 50, 1/2, [("Healthy", 1/2), ("Mosaic", 1/2)], 1⟩ := by
    have haug0 : augmentOnce tapeId [[(⟨0, 0, 0⟩ : Px)]] = [[⟨1/10, 1/10, 1/10⟩]] := by
      simpa [img0] using eval_augId
    unfold predict_with_tta load_and_preprocess_image_tf mmTTAdiff
    norm_num [mapExcept, haug0, meanVec, List.range_succ, np_argmax, sortDescByVal,
      probDict, Px.mk.injEq, img0]
    exact fun h => (List.cons_ne_nil _ _ h).elim
  have htop : get_top_3_predictions mmTTAdiff "q" =
      some [⟨"Healthy", 90, 9/10⟩, ⟨"Mosaic", 10, 1/10⟩] := by
    unfold get_top_3_predictions load_and_preprocess_image_tf mmTTAdiff
    norm_num [top3Indices, np_argsort, argKey, List.range_succ]
  unfold improved_predict underlying_result
  rw [if_pos rfl, htta]
  simp only [Option.map_some']
  rw [htop]
  norm_num [TTAResult.toDirect]

/-- Claim C3 counterexample: on a five-way tie the first top-3 entry is
class index 4 (`Yellow`), not the ascending-tie-break `Healthy`; and in
a TTA result the top-3 entry for `Healthy` carries probability 9/10
while the accompanying probabilities mapping records 1/2 for it — the
pair is not in the mapping. -/
theorem c3_counterexample :
    get_top_3_predictions mmTie "p" =
      some [⟨"Yellow", 20, 1/5⟩, ⟨"Rust", 20, 1/5⟩, ⟨"RedRot", 20, 1/5⟩] ∧
    ("Yellow" : String) ≠ "Healthy" ∧
    improved_predict mmTTAdiff "q" true 0 [tapeId] =
      .ok "success" "Healthy" 50 (1/2) [("Healthy", 1/2), ("Mosaic", 1/2)]
        (methodString true [tapeId]) (successMessage "Healthy" 50)
        (some [⟨"Healthy", 90, 9/10⟩, ⟨"Mosaic", 10, 1/10⟩]) ∧
    ("Healthy", (9:ℚ)/10) ∉ [("Healthy", (1:ℚ)/2), ("Mosaic", (1:ℚ)/2)] := by
  refine ⟨eval_top3_mmTie, by decide, eval_imp_mmTTAdiff, ?_⟩
  norm_num [Prod.mk.injEq]

/-- Witness for the amended C3 at the concrete tie fixture. -/
theorem c3_top3_witness :
    get_top_3_predictions mmTie "p" =
      some ((top3Indices [1/5, 1/5, 1/5, 1/5, 1/5]).map (fun i =>
        ⟨mmTie.classes.getD i "", [(1:ℚ)/5, 1/5, 1/5, 1/5, 1/5].getD i 0 * 100,
         [(1:ℚ)/5, 1/5, 1/5, 1/5, 1/5].getD i 0⟩)) ∧
    (top3Indices [(1:ℚ)/5, 1/5, 1/5, 1/5, 1/5]).Pairwise (fun i j =>
      [(1:ℚ)/5, 1/5, 1/5, 1/5, 1/5].getD j 0 < [(1:ℚ)/5, 1/5, 1/5, 1/5, 1/5].getD i 0 ∨
      ([(1:ℚ)/5, 1/5, 1/5, 1/5, 1/5].getD i 0 = [(1:ℚ)/5, 1/5, 1/5, 1/5, 1/5].getD j 0 ∧ j < i)) :=
  ⟨(c3_top3 mmTie "p" img0 [1/5, 1/5, 1/5, 1/5, 1/5] rfl rfl rfl).1,
   (c3_top3 mmTie "p" img0 [1/5, 1/5, 1/5, 1/5, 1/5] rfl rfl rfl).2.2.1⟩
